import Mathlib

/-!
Verification of the batch document-to-Markdown conversion orchestrator
(`convert_pdfs_to_markdown.py`).

The script discovers input files by extension, submits each to a remote
conversion client under a semaphore-bounded concurrency cap, skips jobs whose
output file already exists, writes successful results to disk, and aggregates
a summary.  We embed the script shallowly:

* POSIX pure paths (`pathlib.PurePosixPath` as used by the script) are
  modelled by `splitPath` / `renderPath` over the path string's characters;
* the output filesystem is an association list from path to file content;
* the remote client's behaviour for a job is an oracle (`ClientOutcome`):
  a returned object with an optional `markdown` attribute, or a raised
  exception carrying a message; a possible exception during the output write
  is a second oracle component;
* `process_file`, file discovery, the summary, and `main`'s control flow are
  translated function by function;
* the `asyncio` batch (`asyncio.gather` over the job list) is modelled as the
  sequential composition of the jobs in task order, which is how `gather`
  orders its result list; the semaphore-bounded interleaving itself is
  modelled separately as a small-step transition system (`OrchStep`).
-/

/-- Truncate a string to its first `n` characters, as Python `s[:n]`. -/
def truncateStr (n : Nat) (s : String) : String := ⟨s.data.take n⟩

/-- Characters of `s` split on the separator character, Python-`str.split`
style: `splitOnChar '/' "a//b"` gives `["a", "", "b"]`. -/
def splitOnChar (sep : Char) : List Char → List (List Char)
  | [] => [[]]
  | c :: rest =>
    let r := splitOnChar sep rest
    if c = sep then [] :: r
    else
      match r with
      | [] => [[c]]
      | h :: t => (c :: h) :: t

/-- Parse a path string the way `pathlib.PurePosixPath` does: an
absolute-path flag plus the list of non-empty, non-`"."` components. -/
def splitPath (s : String) : Bool × List String :=
  let comps := (splitOnChar '/' s.data).map (fun cs => String.mk cs)
  (decide (s.data.head? = some '/'), comps.filter (fun c => c ≠ "" && c ≠ "."))

/-- Render an absolute-path flag and component list back to a string, the way
`str(PurePosixPath(...))` does: `"/"` or `"."` when there are no components. -/
def renderPath (abs : Bool) (comps : List String) : String :=
  if comps = [] then (if abs then "/" else ".")
  else (if abs then "/" else "") ++ String.intercalate "/" comps

/-- Python `PurePosixPath(p).name`: the final component, `""` for a root or
empty path. -/
def pathName (p : String) : String := ((splitPath p).2.getLast?).getD ""

/-- Python `str(PurePosixPath(p).parent)`: drop the final component. -/
def pathParent (p : String) : String :=
  let parsed := splitPath p
  renderPath parsed.1 parsed.2.dropLast

/-- Python `str(PurePosixPath(base) / child)` for a plain (slash-free)
`child` component. -/
def pathJoin (base child : String) : String :=
  let parsed := splitPath base
  renderPath parsed.1 (parsed.2 ++ [child])

/-- Python `PurePosixPath(name).stem`: the name with its last suffix
removed; a suffix is a final dot-separated part whose dot is neither the
first nor the last character (CPython's `0 < i < len(name) - 1` rule). -/
def pathStem (name : String) : String :=
  let cs := name.data
  match ((List.range cs.length).filter (fun i => cs.get? i = some '.')).getLast? with
  | some i => if 0 < i ∧ i < cs.length - 1 then ⟨cs.take i⟩ else name
  | none => name

/-- Default output directory computed by `parse_args` when `--output` is
falsy: `input.parent / (input.name + "_Markdown")` when the input path has a
non-empty name, else `input / "Markdown"` (source lines 62-67). -/
def defaultOutputDir (inputArg : String) : String :=
  if pathName inputArg ≠ "" then
    pathJoin (pathParent inputArg) (pathName inputArg ++ "_Markdown")
  else
    pathJoin inputArg "Markdown"

/-- Output directory after `parse_args`: the given `--output` unless it is
absent or empty (Python falsiness of `args.output`). -/
def resolveOutputDir (inputArg : String) (outputArg : Option String) : String :=
  match outputArg with
  | some s => if s = "" then defaultOutputDir inputArg else s
  | none => defaultOutputDir inputArg

/-- The output filesystem: an association list from file path to content.
Writes prepend, so `Fs.read?` sees the newest write. -/
abbrev Fs := List (String × String)

/-- Python `Path.exists()` on our filesystem model. -/
def Fs.pathExists (fs : Fs) (p : String) : Bool := fs.any (fun e => e.1 = p)

/-- Python `Path.write_text`: record content under the path. -/
def Fs.write (fs : Fs) (p c : String) : Fs := (p, c) :: fs

/-- Python `Path.read_text`: the newest content written under the path. -/
def Fs.read? (fs : Fs) (p : String) : Option String :=
  (fs.find? (fun e => e.1 = p)).map (fun e => e.2)

/-- Outcome of `client.convert` for one job: either a returned result object
whose `markdown` attribute is read with `getattr(result, "markdown", None)`,
or a raised exception with message `str(e)`. -/
inductive ClientOutcome where
  | result (markdown : Option String)
  | raised (msg : String)
deriving DecidableEq, Repr

/-- Oracle for the effects outside the script's control during one job: what
the remote client does, and whether the output write raises (with which
message). -/
structure JobEnv where
  convert : ClientOutcome
  writeExn : Option String
deriving DecidableEq, Repr

/-- The tuple `(success, file_path.name, message)` returned by
`process_file`. -/
structure JobResult where
  success : Bool
  name : String
  message : String
deriving DecidableEq, Repr

/-- The output path `Path(args.output) / f"{file_path.stem}.md"` of a job. -/
def markdownPath (outputDir fileName : String) : String :=
  pathJoin outputDir (pathStem fileName ++ ".md")

/-- `process_file` (source lines 72-114), for a job on the file named
`fileName`: skip when the output exists; otherwise call the client; treat a
falsy `markdown` attribute as a raised `RuntimeError`; on success write the
file; any exception is caught and its message truncated to 200 characters.
Returns the result, the number of remote calls made (0 or 1), and the
filesystem after the job.  The progress bar is cosmetic and not modelled;
the semaphore is modelled separately by `OrchStep`. -/
def process_file (fileName outputDir : String) (env : JobEnv) (fs : Fs) :
    JobResult × Nat × Fs :=
  let markdown_file := markdownPath outputDir fileName
  if fs.pathExists markdown_file then
    (⟨true, fileName, "Skipped (exists)"⟩, 0, fs)
  else
    match env.convert with
    | .raised e => (⟨false, fileName, truncateStr 200 e⟩, 1, fs)
    | .result md =>
      if md.getD "" = "" then
        (⟨false, fileName, truncateStr 200 "No markdown content returned from Datalab API"⟩,
          1, fs)
      else
        match env.writeExn with
        | some e => (⟨false, fileName, truncateStr 200 e⟩, 1, fs)
        | none => (⟨true, fileName, "Converted"⟩, 1, fs.write markdown_file (md.getD ""))

/-- The batch over the discovered job list (`asyncio.gather` over
`process_file` tasks, results in task order), returning the result list, the
total number of remote calls, and the final filesystem. -/
def runBatch (outputDir : String) (envs : String → JobEnv) :
    List String → Fs → List JobResult × Nat × Fs
  | [], fs => ([], 0, fs)
  | f :: rest, fs =>
    let step := process_file f outputDir (envs f) fs
    let restRun := runBatch outputDir envs rest step.2.2
    (step.1 :: restRun.1, step.2.1 + restRun.2.1, restRun.2.2)

/-- String of the uppercased characters, Python `str.upper` on ASCII
extensions. -/
def strUpper (s : String) : String := ⟨s.data.map Char.toUpper⟩

/-- String of the lowercased characters. -/
def strLower (s : String) : String := ⟨s.data.map Char.toLower⟩

/-- Whether `s` ends with `suffix`, by characters. -/
def strEndsWith (s suffix : String) : Bool := suffix.data.isSuffixOf s.data

/-- The extension list selected by `--format` (source lines 149-157). -/
def extsFor (fmt : String) : List String :=
  if fmt = "all" then [".pdf", ".epub", ".html", ".htm"]
  else if fmt = "epub" then [".epub"]
  else if fmt = "html" then [".html", ".htm"]
  else [".pdf"]

/-- `input_path.glob(f"*{ext}")` over a non-recursive directory listing on a
case-sensitive filesystem: the entries whose name ends with `ext` (the
pattern `*X` for a wildcard-free `X` matches exactly the names with suffix
`X`, dotfiles included under `pathlib` matching). -/
def globSuffix (dirFiles : List String) (ext : String) : List String :=
  dirFiles.filter (fun f => strEndsWith f ext)

/-- File discovery (source lines 159-164): for each selected extension, glob
the lower-case pattern then the upper-cased pattern, and deduplicate the
concatenation (`list(set(...))`; we keep first occurrences, the claims are
about the set). -/
def discoverFiles (dirFiles : List String) (fmt : String) : List String :=
  ((extsFor fmt).flatMap
    (fun ext => globSuffix dirFiles ext ++ globSuffix dirFiles (strUpper ext))).dedup

/-- Formalisation of the claim's wording for discovery (spec side of the
refinement, for comparison with `discoverFiles`): a file is selected iff it
is in the directory and its extension matches an extension of the
selector's list case-insensitively. -/
def specDiscoveredCaseInsensitive (dirFiles : List String) (fmt f : String) : Prop :=
  f ∈ dirFiles ∧ ∃ ext ∈ extsFor fmt, strEndsWith (strLower f) ext = true

/-- `os.getenv("DATALAB_API_KEY") or os.getenv("MARKER_PDF_KEY")` (source
line 122), with Python `or`: the first operand unless it is falsy (`None` or
`""`). -/
def envApiKey (datalabKey markerKey : Option String) : Option String :=
  match datalabKey with
  | some s => if s = "" then markerKey else some s
  | none => markerKey

/-- The guard of source line 124: `not api_key or api_key in
("your_api_key_here", "")`. -/
def apiKeyInvalid (apiKey : Option String) : Bool :=
  match apiKey with
  | none => true
  | some s => s = "" || (s = "your_api_key_here" || s = "")

/-- The printed summary (source lines 190-207): the "successful" tally, the
failed count, the total, the failures printed in detail (first 10, names cut
to 60 and messages to 100 characters for display), and how many further
failures are only counted. -/
structure Summary where
  successful : Nat
  failedCount : Nat
  total : Nat
  shownFailures : List (String × String)
  hiddenFailures : Nat
deriving DecidableEq, Repr

/-- Build the summary from the gathered results and
`len(files_to_convert)`. -/
def makeSummary (results : List JobResult) (total : Nat) : Summary :=
  let successful := (results.filter (fun r => r.success)).map (fun r => r.name)
  let failed := (results.filter (fun r => !r.success)).map (fun r => (r.name, r.message))
  { successful := successful.length
    failedCount := failed.length
    total := total
    shownFailures := (failed.take 10).map (fun p => (truncateStr 60 p.1, truncateStr 100 p.2))
    hiddenFailures := failed.length - 10 }

/-- Observable outcome of one run of `main`. -/
structure MainResult where
  exitCode : Nat
  summary : Option Summary
  remoteCalls : Nat
  fs : Fs
deriving DecidableEq, Repr

/-- Control flow of `main` (source lines 117-207): resolve the API key and
`sys.exit(1)` when it is missing or a placeholder; otherwise resolve the
output directory, discover files, return early (exit 0, no summary) when
none are found, else run the batch and summarise.  `dirFiles` is the input
directory's listing (read once, before the batch); `fs` is the output
filesystem. -/
def runMain (datalabKey markerKey : Option String) (inputArg : String)
    (outputArg : Option String) (fmt : String) (dirFiles : List String)
    (envs : String → JobEnv) (fs : Fs) : MainResult :=
  if apiKeyInvalid (envApiKey datalabKey markerKey) then
    { exitCode := 1, summary := none, remoteCalls := 0, fs := fs }
  else
    let outputDir := resolveOutputDir inputArg outputArg
    let files := discoverFiles dirFiles fmt
    if files = [] then
      { exitCode := 0, summary := none, remoteCalls := 0, fs := fs }
    else
      let batch := runBatch outputDir envs files fs
      { exitCode := 0, summary := some (makeSummary batch.1 files.length)
        remoteCalls := batch.2.1, fs := batch.2.2 }

/-- Phase of one job task with respect to the shared
`asyncio.Semaphore(10)`: not yet entered `async with semaphore`; holding a
permit outside the remote call (the exists check, or the write after the
call returns); awaiting `client.convert`; or finished, the permit released
by leaving the `async with` block on any path, return or exception. -/
inductive JobPhase where
  | pending
  | holding
  | awaitingCall
  | done
deriving DecidableEq, Repr

/-- Whether a phase holds a semaphore permit. -/
def JobPhase.holdsPermit : JobPhase → Bool
  | .holding => true
  | .awaitingCall => true
  | _ => false

/-- State of the orchestrator: free permits of the shared semaphore and the
phase of every job task. -/
structure OrchState where
  permits : Nat
  jobs : List JobPhase
deriving DecidableEq, Repr

/-- Interleaved execution steps of the batch: a job enters `async with
semaphore` only when a permit is free; begins and ends its remote call while
holding its permit; and releases the permit exactly when it finishes,
whatever the outcome. -/
inductive OrchStep : OrchState → OrchState → Prop where
  | acquire (s : OrchState) (i : Nat) (h : i < s.jobs.length)
      (hperm : 0 < s.permits) (hph : s.jobs.get ⟨i, h⟩ = .pending) :
      OrchStep s ⟨s.permits - 1, s.jobs.set i .holding⟩
  | beginCall (s : OrchState) (i : Nat) (h : i < s.jobs.length)
      (hph : s.jobs.get ⟨i, h⟩ = .holding) :
      OrchStep s ⟨s.permits, s.jobs.set i .awaitingCall⟩
  | endCall (s : OrchState) (i : Nat) (h : i < s.jobs.length)
      (hph : s.jobs.get ⟨i, h⟩ = .awaitingCall) :
      OrchStep s ⟨s.permits, s.jobs.set i .holding⟩
  | finish (s : OrchState) (i : Nat) (h : i < s.jobs.length)
      (hph : s.jobs.get ⟨i, h⟩ = .holding) :
      OrchStep s ⟨s.permits + 1, s.jobs.set i .done⟩

/-- Initial orchestrator state: `asyncio.Semaphore(10)` fresh (source line
174) and one pending task per discovered file. -/
def initOrch (n : Nat) : OrchState := ⟨10, List.replicate n .pending⟩

/-- Number of jobs currently awaiting the remote call. -/
def awaitingCount (s : OrchState) : Nat :=
  s.jobs.countP (fun p => p = .awaitingCall)

example :
    process_file "a.pdf" "/out" ⟨.result (some "hi"), none⟩ [] =
      (⟨true, "a.pdf", "Converted"⟩, 1, [("/out/a.md", "hi")]) := by decide

example :
    process_file "a.pdf" "/out" ⟨.raised "boom", none⟩ [("/out/a.md", "old")] =
      (⟨true, "a.pdf", "Skipped (exists)"⟩, 0, [("/out/a.md", "old")]) := by decide

example : defaultOutputDir "/data/docs" = "/data/docs_Markdown" := by decide
example : defaultOutputDir "/" = "/Markdown" := by decide
/-! ## Helper lemmas about `process_file` and `runBatch` -/

theorem truncateStr_length_le (n : Nat) (s : String) : (truncateStr n s).length ≤ n := by
  simp only [truncateStr, String.length]
  exact (List.length_take n s.data).le.trans (min_le_left _ _)

theorem Fs.pathExists_write_self (fs : Fs) (p c : String) :
    (fs.write p c).pathExists p = true := by
  simp [Fs.pathExists, Fs.write]

theorem Fs.pathExists_write_mono (fs : Fs) (p q c : String)
    (h : fs.pathExists q = true) : (fs.write p c).pathExists q = true := by
  simp [Fs.pathExists, Fs.write] at h ⊢
  exact Or.inr h

theorem process_file_skip (fileName outputDir : String) (env : JobEnv) (fs : Fs)
    (h : fs.pathExists (markdownPath outputDir fileName) = true) :
    process_file fileName outputDir env fs =
      (⟨true, fileName, "Skipped (exists)"⟩, 0, fs) := by
  simp [process_file, h]

theorem process_file_name (fileName outputDir : String) (env : JobEnv) (fs : Fs) :
    (process_file fileName outputDir env fs).1.name = fileName := by
  obtain ⟨conv, wexn⟩ := env
  cases conv <;> cases wexn <;> simp only [process_file] <;>
    repeat first | rfl | split

theorem process_file_fs_mono (fileName outputDir p : String) (env : JobEnv) (fs : Fs)
    (h : fs.pathExists p = true) :
    ((process_file fileName outputDir env fs).2.2).pathExists p = true := by
  obtain ⟨conv, wexn⟩ := env
  cases conv <;> cases wexn <;> simp only [process_file] <;>
    repeat first
      | exact h
      | exact Fs.pathExists_write_mono fs _ p _ h
      | split

theorem process_file_success_exists (fileName outputDir : String) (env : JobEnv) (fs : Fs)
    (h : (process_file fileName outputDir env fs).1.success = true) :
    ((process_file fileName outputDir env fs).2.2).pathExists
      (markdownPath outputDir fileName) = true := by
  obtain ⟨conv, wexn⟩ := env
  cases conv <;> cases wexn <;>
    simp only [process_file] at h ⊢ <;>
    repeat first
      | simp_all
      | exact Fs.pathExists_write_self fs _ _
      | split

theorem process_file_success_message (fileName outputDir : String) (env : JobEnv) (fs : Fs)
    (h : (process_file fileName outputDir env fs).1.success = true) :
    (process_file fileName outputDir env fs).1.message = "Skipped (exists)" ∨
      (process_file fileName outputDir env fs).1.message = "Converted" := by
  obtain ⟨conv, wexn⟩ := env
  cases conv <;> cases wexn <;>
    simp only [process_file] at h ⊢ <;>
    repeat first
      | simp_all
      | split

theorem runBatch_length (outputDir : String) (envs : String → JobEnv)
    (jobs : List String) (fs : Fs) :
    ((runBatch outputDir envs jobs fs).1).length = jobs.length := by
  induction jobs generalizing fs with
  | nil => rfl
  | cons f rest ih => simp [runBatch, ih]

theorem runBatch_names (outputDir : String) (envs : String → JobEnv)
    (jobs : List String) (fs : Fs) :
    ((runBatch outputDir envs jobs fs).1).map (fun r => r.name) = jobs := by
  induction jobs generalizing fs with
  | nil => rfl
  | cons f rest ih => simp [runBatch, ih, process_file_name]

theorem runBatch_fs_mono (outputDir p : String) (envs : String → JobEnv)
    (jobs : List String) (fs : Fs) (h : fs.pathExists p = true) :
    ((runBatch outputDir envs jobs fs).2.2).pathExists p = true := by
  induction jobs generalizing fs with
  | nil => exact h
  | cons f rest ih =>
    exact ih _ (process_file_fs_mono f outputDir p (envs f) fs h)

theorem runBatch_all_success_exists (outputDir : String) (envs : String → JobEnv)
    (jobs : List String) (fs : Fs)
    (h : ∀ r ∈ (runBatch outputDir envs jobs fs).1, r.success = true) :
    ∀ j ∈ jobs,
      ((runBatch outputDir envs jobs fs).2.2).pathExists (markdownPath outputDir j) = true := by
  induction jobs generalizing fs with
  | nil => simp
  | cons f rest ih =>
    intro j hj
    have hhead : (process_file f outputDir (envs f) fs).1.success = true :=
      h _ (by simp [runBatch])
    have htail : ∀ r ∈ (runBatch outputDir envs rest
        (process_file f outputDir (envs f) fs).2.2).1, r.success = true := by
      intro r hr
      apply h
      simp [runBatch]
      exact Or.inr hr
    rcases List.mem_cons.mp hj with hj | hj
    · subst hj
      simp only [runBatch]
      exact runBatch_fs_mono outputDir _ envs rest _
        (process_file_success_exists j outputDir (envs j) fs hhead)
    · simpa only [runBatch] using ih _ htail j hj

theorem runBatch_skip_all (outputDir : String) (envs : String → JobEnv)
    (jobs : List String) (fs : Fs)
    (h : ∀ j ∈ jobs, fs.pathExists (markdownPath outputDir j) = true) :
    runBatch outputDir envs jobs fs =
      (jobs.map (fun j => ⟨true, j, "Skipped (exists)"⟩), 0, fs) := by
  induction jobs with
  | nil => rfl
  | cons f rest ih =>
    have hf := h f (by simp)
    simp [runBatch, process_file_skip f outputDir (envs f) fs hf,
      ih (fun j hj => h j (by simp [hj]))]

theorem runBatch_success_message (outputDir : String) (envs : String → JobEnv)
    (jobs : List String) (fs : Fs) :
    ∀ r ∈ (runBatch outputDir envs jobs fs).1, r.success = true →
      r.message = "Skipped (exists)" ∨ r.message = "Converted" := by
  induction jobs generalizing fs with
  | nil => simp [runBatch]
  | cons f rest ih =>
    intro r hr hs
    rcases List.mem_cons.mp (by simpa [runBatch] using hr) with hr | hr
    · subst hr
      exact process_file_success_message f outputDir (envs f) fs hs
    · exact ih _ r hr hs

theorem success_count_lump (l : List JobResult)
    (h : ∀ r ∈ l, r.success = true →
      r.message = "Skipped (exists)" ∨ r.message = "Converted") :
    (l.filter (fun r => r.success)).length =
      l.countP (fun r => r.success && r.message == "Converted") +
        l.countP (fun r => r.success && r.message == "Skipped (exists)") := by
  induction l with
  | nil => simp
  | cons a t ih =>
    have ht := ih (fun r hr => h r (List.mem_cons_of_mem a hr))
    by_cases hs : a.success = true
    · rcases h a (by simp) hs with hm | hm <;>
        simp [List.countP_cons, hs, hm, ht] <;> omega
    · simp only [Bool.not_eq_true] at hs
      simp [List.countP_cons, hs, ht]

/-! ## Claim theorems -/

/-- C1: a job whose output file already exists returns a success result
marked skipped, makes no remote call, and leaves the filesystem (in
particular the existing output file) untouched. -/
theorem claim_C1_skip_if_output_exists (fileName outputDir : String) (env : JobEnv)
    (fs : Fs) (h : fs.pathExists (markdownPath outputDir fileName) = true) :
    process_file fileName outputDir env fs =
      (⟨true, fileName, "Skipped (exists)"⟩, 0, fs) :=
  process_file_skip fileName outputDir env fs h

theorem claim_C1_witness :
    Fs.pathExists [("/out/a.md", "old")] (markdownPath "/out" "a.pdf") = true ∧
    process_file "a.pdf" "/out" ⟨.raised "boom", none⟩ [("/out/a.md", "old")] =
      (⟨true, "a.pdf", "Skipped (exists)"⟩, 0, [("/out/a.md", "old")]) :=
  ⟨by decide,
    claim_C1_skip_if_output_exists "a.pdf" "/out" ⟨.raised "boom", none⟩
      [("/out/a.md", "old")] (by decide)⟩

/-- C3: a job whose remote call returns an empty or absent `markdown`
attribute yields a failed result (not a skip, not a success) and creates no
output file: the filesystem is returned unchanged. -/
theorem claim_C3_empty_markdown_fails (fileName outputDir : String) (fs : Fs)
    (md : Option String) (wexn : Option String)
    (hex : fs.pathExists (markdownPath outputDir fileName) = false)
    (hmd : md.getD "" = "") :
    process_file fileName outputDir ⟨.result md, wexn⟩ fs =
      (⟨false, fileName, "No markdown content returned from Datalab API"⟩, 1, fs) := by
  simp [process_file, hex, hmd]
  decide

theorem claim_C3_witness :
    (Fs.pathExists [] (markdownPath "/out" "a.pdf") = false ∧
      (Option.getD (α := String) none "" = "")) ∧
    process_file "a.pdf" "/out" ⟨.result none, none⟩ [] =
      (⟨false, "a.pdf", "No markdown content returned from Datalab API"⟩, 1, []) :=
  ⟨⟨by decide, by decide⟩,
    claim_C3_empty_markdown_fails "a.pdf" "/out" [] none none (by decide) (by decide)⟩

/-- C4: an exception raised by the remote call, or by the output write, is
caught and turned into a failed result whose message is the exception text
truncated to at most 200 characters (the filesystem is unchanged), and the
batch still runs every job to completion: it yields exactly one result per
discovered file, in task order. -/
theorem claim_C4_exception_caught_batch_continues :
    (∀ (fileName outputDir e : String) (wexn : Option String) (fs : Fs),
      Fs.pathExists fs (markdownPath outputDir fileName) = false →
      process_file fileName outputDir ⟨.raised e, wexn⟩ fs =
        (⟨false, fileName, truncateStr 200 e⟩, 1, fs)) ∧
    (∀ (fileName outputDir content e : String) (fs : Fs),
      Fs.pathExists fs (markdownPath outputDir fileName) = false →
      content ≠ "" →
      process_file fileName outputDir ⟨.result (some content), some e⟩ fs =
        (⟨false, fileName, truncateStr 200 e⟩, 1, fs)) ∧
    (∀ e : String, (truncateStr 200 e).length ≤ 200) ∧
    (∀ (outputDir : String) (envs : String → JobEnv) (jobs : List String) (fs : Fs),
      ((runBatch outputDir envs jobs fs).1).map (fun r => r.name) = jobs) := by
  refine ⟨?_, ?_, fun e => truncateStr_length_le 200 e, runBatch_names⟩
  · intro fileName outputDir e wexn fs hex
    simp [process_file, hex]
  · intro fileName outputDir content e fs hex hc
    simp [process_file, hex, hc]

theorem claim_C4_witness :
    process_file "a.pdf" "/out" ⟨.raised (String.mk (List.replicate 321 'x')), none⟩ [] =
      (⟨false, "a.pdf", truncateStr 200 (String.mk (List.replicate 321 'x'))⟩, 1, []) ∧
    (truncateStr 200 (String.mk (List.replicate 321 'x'))).length ≤ 200 ∧
    ((runBatch "/out" (fun _ => ⟨.raised "boom", none⟩) ["a.pdf", "b.pdf"] []).1).map
      (fun r => r.name) = ["a.pdf", "b.pdf"] :=
  ⟨claim_C4_exception_caught_batch_continues.1 "a.pdf" "/out" _ none [] (by decide),
    claim_C4_exception_caught_batch_continues.2.2.1 _,
    claim_C4_exception_caught_batch_continues.2.2.2 "/out" _ ["a.pdf", "b.pdf"] []⟩

/-- C6: if a first batch run over some job list ends with every result
successful, then a second run over the same jobs and output directory,
starting from the filesystem the first run produced and against any remote
behaviour whatsoever, reports every job skipped (one skipped result per job,
100 percent of the total) and makes zero remote calls, leaving the
filesystem unchanged. -/
theorem claim_C6_second_run_all_skipped (outputDir : String)
    (envs1 envs2 : String → JobEnv) (jobs : List String) (fs : Fs)
    (h : ∀ r ∈ (runBatch outputDir envs1 jobs fs).1, r.success = true) :
    runBatch outputDir envs2 jobs ((runBatch outputDir envs1 jobs fs).2.2) =
      (jobs.map (fun j => ⟨true, j, "Skipped (exists)"⟩), 0,
        (runBatch outputDir envs1 jobs fs).2.2) :=
  runBatch_skip_all outputDir envs2 jobs _
    (runBatch_all_success_exists outputDir envs1 jobs fs h)

theorem claim_C6_witness :
    (∀ r ∈ (runBatch "/out" (fun _ => ⟨.result (some "hi"), none⟩) ["a.pdf", "b.pdf"] []).1,
      r.success = true) ∧
    runBatch "/out" (fun _ => ⟨.raised "must not be called", none⟩) ["a.pdf", "b.pdf"]
        ((runBatch "/out" (fun _ => ⟨.result (some "hi"), none⟩) ["a.pdf", "b.pdf"] []).2.2) =
      ([⟨true, "a.pdf", "Skipped (exists)"⟩, ⟨true, "b.pdf", "Skipped (exists)"⟩], 0,
        (runBatch "/out" (fun _ => ⟨.result (some "hi"), none⟩) ["a.pdf", "b.pdf"] []).2.2) :=
  ⟨by decide,
    claim_C6_second_run_all_skipped "/out" (fun _ => ⟨.result (some "hi"), none⟩)
      (fun _ => ⟨.raised "must not be called", none⟩) ["a.pdf", "b.pdf"] [] (by decide)⟩

/-- C7: the summary over the gathered results counts as "successful" exactly
the converted results plus the skipped-because-already-existing results,
counts the failed results, reports the number of discovered files as the
total, shows only the first 10 failures in detail (names cut to 60,
messages to 100 characters for display), and only counts the rest. -/
theorem claim_C7_summary_shape (outputDir : String) (envs : String → JobEnv)
    (jobs : List String) (fs : Fs) :
    (makeSummary (runBatch outputDir envs jobs fs).1 jobs.length).successful =
        (runBatch outputDir envs jobs fs).1.countP
          (fun r => r.success && r.message == "Converted") +
        (runBatch outputDir envs jobs fs).1.countP
          (fun r => r.success && r.message == "Skipped (exists)") ∧
    (makeSummary (runBatch outputDir envs jobs fs).1 jobs.length).failedCount =
        (runBatch outputDir envs jobs fs).1.countP (fun r => !r.success) ∧
    (makeSummary (runBatch outputDir envs jobs fs).1 jobs.length).total = jobs.length ∧
    (makeSummary (runBatch outputDir envs jobs fs).1 jobs.length).shownFailures =
        ((((runBatch outputDir envs jobs fs).1.filter (fun r => !r.success)).map
            (fun r => (r.name, r.message))).take 10).map
          (fun p => (truncateStr 60 p.1, truncateStr 100 p.2)) ∧
    (makeSummary (runBatch outputDir envs jobs fs).1 jobs.length).shownFailures.length ≤ 10 ∧
    (makeSummary (runBatch outputDir envs jobs fs).1 jobs.length).hiddenFailures =
        (runBatch outputDir envs jobs fs).1.countP (fun r => !r.success) - 10 := by
  refine ⟨?_, ?_, rfl, rfl, ?_, ?_⟩
  · simp only [makeSummary, List.length_map]
    exact success_count_lump _ (runBatch_success_message outputDir envs jobs fs)
  · simp [makeSummary, List.countP_eq_length_filter]
  · simp only [makeSummary, List.length_map, List.length_take]
    omega
  · simp [makeSummary, List.countP_eq_length_filter]

/-- C8: the exit status is 1 exactly when the resolved API key is missing or
a placeholder, decided before any conversion work (no remote call, no
summary, untouched filesystem); with a valid key the process exits 0, even
when jobs fail. -/
theorem claim_C8_exit_status (datalabKey markerKey : Option String) (inputArg : String)
    (outputArg : Option String) (fmt : String) (dirFiles : List String)
    (envs : String → JobEnv) (fs : Fs) :
    ((runMain datalabKey markerKey inputArg outputArg fmt dirFiles envs fs).exitCode =
      if apiKeyInvalid (envApiKey datalabKey markerKey) then 1 else 0) ∧
    (apiKeyInvalid (envApiKey datalabKey markerKey) = true →
      runMain datalabKey markerKey inputArg outputArg fmt dirFiles envs fs =
        { exitCode := 1, summary := none, remoteCalls := 0, fs := fs }) ∧
    (apiKeyInvalid (envApiKey datalabKey markerKey) = false →
      (runMain datalabKey markerKey inputArg outputArg fmt dirFiles envs fs).exitCode = 0) := by
  cases h : apiKeyInvalid (envApiKey datalabKey markerKey)
  · refine ⟨?_, fun hcontra => absurd hcontra (by simp [h]), fun _ => ?_⟩ <;>
      (simp only [runMain, h, Bool.false_eq_true, if_false]; split <;> rfl)
  · exact ⟨by simp [runMain, h], fun _ => by simp [runMain, h],
      fun hcontra => absurd hcontra (by simp [h])⟩

theorem claim_C8_witness :
    ((runMain (some "k") none "/in" none "pdf" ["a.pdf"]
        (fun _ => ⟨.raised "boom", none⟩) []).exitCode =
      if apiKeyInvalid (envApiKey (some "k") none) then 1 else 0) ∧
    (apiKeyInvalid (envApiKey (some "k") none) = true →
      runMain (some "k") none "/in" none "pdf" ["a.pdf"]
          (fun _ => ⟨.raised "boom", none⟩) [] =
        { exitCode := 1, summary := none, remoteCalls := 0, fs := [] }) ∧
    (apiKeyInvalid (envApiKey (some "k") none) = false →
      (runMain (some "k") none "/in" none "pdf" ["a.pdf"]
        (fun _ => ⟨.raised "boom", none⟩) []).exitCode = 0) :=
  claim_C8_exit_status (some "k") none "/in" none "pdf" ["a.pdf"]
    (fun _ => ⟨.raised "boom", none⟩) []

/-- C10: the credential guard rejects exactly a missing key, an empty key,
and the literal placeholder "your_api_key_here"; any other non-empty key is
accepted and the run proceeds to exit status 0. -/
theorem claim_C10_placeholder_literal :
    (∀ k : Option String, apiKeyInvalid k = true ↔
      (k = none ∨ k = some "" ∨ k = some "your_api_key_here")) ∧
    (∀ (s : String) (markerKey : Option String) (inputArg : String)
        (outputArg : Option String) (fmt : String) (dirFiles : List String)
        (envs : String → JobEnv) (fs : Fs),
      s ≠ "" → s ≠ "your_api_key_here" →
      (runMain (some s) markerKey inputArg outputArg fmt dirFiles envs fs).exitCode = 0) := by
  constructor
  · intro k
    cases k with
    | none => simp [apiKeyInvalid]
    | some s =>
      simp only [apiKeyInvalid, Bool.or_eq_true, decide_eq_true_eq,
        Option.some.injEq, reduceCtorEq, false_or]
      tauto
  · intro s markerKey inputArg outputArg fmt dirFiles envs fs hs hp
    have hk : envApiKey (some s) markerKey = some s := by simp [envApiKey, hs]
    have hinv : apiKeyInvalid (envApiKey (some s) markerKey) = false := by
      rw [hk]
      simp [apiKeyInvalid, hs, hp]
    simp only [runMain, hinv, Bool.false_eq_true, if_false]
    split <;> rfl

theorem claim_C10_witness :
    (apiKeyInvalid (some "sk-123") = true ↔
      (some "sk-123" = none ∨ some "sk-123" = some "" ∨
        some "sk-123" = some "your_api_key_here")) ∧
    (runMain (some "sk-123") none "/in" none "pdf" ["a.pdf"]
      (fun _ => ⟨.raised "boom", none⟩) []).exitCode = 0 :=
  ⟨claim_C10_placeholder_literal.1 (some "sk-123"),
    claim_C10_placeholder_literal.2 "sk-123" none "/in" none "pdf" ["a.pdf"]
      (fun _ => ⟨.raised "boom", none⟩) [] (by decide) (by decide)⟩

/-- C2 as stated is false: with the single file "e.Pdf" and format "pdf",
case-insensitive extension matching selects the file, but discovery — which
globs only the lower-case pattern and the fully upper-cased pattern — does
not return it. -/
theorem claim_C2_counterexample :
    specDiscoveredCaseInsensitive ["e.Pdf"] "pdf" "e.Pdf" ∧
    "e.Pdf" ∉ discoverFiles ["e.Pdf"] "pdf" := by
  constructor
  · exact ⟨by decide, ".pdf", by decide, by decide⟩
  · decide

/-- C2 amended: discovery returns exactly the distinct files of the
directory whose name ends with the selected extension exactly lower-case or
exactly upper-case (mixed-case extensions are missed); the result has no
duplicates; and the claim's scenario holds: with format "all" over a.pdf,
B.PDF, c.epub, d.txt the discovered set is a.pdf, B.PDF, c.epub. -/
theorem claim_C2_discovery_exact :
    (∀ (dirFiles : List String) (fmt f : String),
      f ∈ discoverFiles dirFiles fmt ↔
        f ∈ dirFiles ∧ ∃ ext ∈ extsFor fmt,
          (strEndsWith f ext = true ∨ strEndsWith f (strUpper ext) = true)) ∧
    (∀ (dirFiles : List String) (fmt : String), (discoverFiles dirFiles fmt).Nodup) ∧
    discoverFiles ["a.pdf", "B.PDF", "c.epub", "d.txt"] "all" =
      ["a.pdf", "B.PDF", "c.epub"] := by
  refine ⟨?_, fun dirFiles fmt => List.nodup_dedup _, by decide⟩
  intro dirFiles fmt f
  simp only [discoverFiles, List.mem_dedup, List.mem_flatMap, List.mem_append,
    globSuffix, List.mem_filter]
  constructor
  · rintro ⟨ext, hext, ⟨hf, he⟩ | ⟨hf, he⟩⟩
    · exact ⟨hf, ext, hext, Or.inl he⟩
    · exact ⟨hf, ext, hext, Or.inr he⟩
  · rintro ⟨hf, ext, hext, he | he⟩
    · exact ⟨ext, hext, Or.inl ⟨hf, he⟩⟩
    · exact ⟨ext, hext, Or.inr ⟨hf, he⟩⟩

/-- C9 as stated is false at the root input "/": its name component is
empty, so the code takes the fallback branch and resolves the default
output to "/Markdown", not the sibling "/_Markdown" that appending
"_Markdown" to the (empty) name next to the parent would give. -/
theorem claim_C9_counterexample :
    resolveOutputDir "/" none = "/Markdown" ∧
    pathJoin (pathParent "/") (pathName "/" ++ "_Markdown") = "/_Markdown" ∧
    resolveOutputDir "/" none ≠ pathJoin (pathParent "/") (pathName "/" ++ "_Markdown") := by
  decide

/-- C9 amended: when no output option is given and the input path has a
non-empty final component, the default output directory is the sibling of
the input named by appending "_Markdown" to the input's name — in
particular "/data/docs" resolves to "/data/docs_Markdown" — while for a
root or empty input it is the child directory "Markdown" of the input. -/
theorem claim_C9_default_output (inputArg : String) (h : pathName inputArg ≠ "") :
    resolveOutputDir inputArg none =
      pathJoin (pathParent inputArg) (pathName inputArg ++ "_Markdown") ∧
    resolveOutputDir "/data/docs" none = "/data/docs_Markdown" :=
  ⟨by simp [resolveOutputDir, defaultOutputDir, h], by decide⟩

theorem claim_C9_witness :
    pathName "/data/docs" ≠ "" ∧
    (resolveOutputDir "/data/docs" none =
        pathJoin (pathParent "/data/docs") (pathName "/data/docs" ++ "_Markdown") ∧
      resolveOutputDir "/data/docs" none = "/data/docs_Markdown") :=
  ⟨by decide, claim_C9_default_output "/data/docs" (by decide)⟩

theorem countP_set_add {α : Type} (p : α → Bool) (l : List α) (i : Nat)
    (h : i < l.length) (v : α) :
    (l.set i v).countP p + (if p (l.get ⟨i, h⟩) then 1 else 0) =
      l.countP p + (if p v then 1 else 0) := by
  induction l generalizing i with
  | nil => cases h
  | cons a t ih =>
    cases i with
    | zero =>
      cases hpa : p a <;> cases hpv : p v <;>
        simp [List.countP_cons, hpa, hpv]
    | succ n =>
      have hn : n < t.length := Nat.lt_of_succ_lt_succ h
      have ht := ih n hn
      cases hpa : p a <;>
        simp only [List.set_cons_succ, List.countP_cons, List.get_cons_succ, hpa,
          if_true, if_false] <;>
        omega

theorem orchStep_inv {s t : OrchState} (hst : OrchStep s t)
    (h : s.permits + s.jobs.countP JobPhase.holdsPermit = 10) :
    t.permits + t.jobs.countP JobPhase.holdsPermit = 10 := by
  cases hst with
  | acquire i hi hperm hph =>
    have hc := countP_set_add JobPhase.holdsPermit s.jobs i hi JobPhase.holding
    rw [hph] at hc
    simp only [JobPhase.holdsPermit, Bool.false_eq_true, if_true, if_false] at hc ⊢
    omega
  | beginCall i hi hph =>
    have hc := countP_set_add JobPhase.holdsPermit s.jobs i hi JobPhase.awaitingCall
    rw [hph] at hc
    simp only [JobPhase.holdsPermit, Bool.false_eq_true, if_true, if_false] at hc ⊢
    omega
  | endCall i hi hph =>
    have hc := countP_set_add JobPhase.holdsPermit s.jobs i hi JobPhase.holding
    rw [hph] at hc
    simp only [JobPhase.holdsPermit, Bool.false_eq_true, if_true, if_false] at hc ⊢
    omega
  | finish i hi hph =>
    have hc := countP_set_add JobPhase.holdsPermit s.jobs i hi JobPhase.done
    rw [hph] at hc
    simp only [JobPhase.holdsPermit, Bool.false_eq_true, if_true, if_false] at hc ⊢
    omega

theorem orch_reachable_inv (n : Nat) (s : OrchState)
    (h : Relation.ReflTransGen OrchStep (initOrch n) s) :
    s.permits + s.jobs.countP JobPhase.holdsPermit = 10 := by
  induction h with
  | refl => simp [initOrch, List.countP_replicate, JobPhase.holdsPermit]
  | tail _ hstep ih => exact orchStep_inv hstep ih

/-- C5: in every state the interleaved batch execution can reach from its
initial state (a fresh 10-permit semaphore, every job pending), at most 10
jobs are simultaneously awaiting the remote conversion call; each job holds
one permit from before its remote call until its completion, and the permit
is released exactly at completion on every outcome path. -/
theorem claim_C5_at_most_ten_awaiting (n : Nat) (s : OrchState)
    (h : Relation.ReflTransGen OrchStep (initOrch n) s) :
    awaitingCount s ≤ 10 := by
  have hinv := orch_reachable_inv n s h
  have hmono : s.jobs.countP (fun p => p = JobPhase.awaitingCall) ≤
      s.jobs.countP JobPhase.holdsPermit := by
    refine List.countP_mono_left fun a _ ha => ?_
    cases a <;> simp_all [JobPhase.holdsPermit]
  unfold awaitingCount
  omega

theorem claim_C5_witness : awaitingCount ⟨9, [JobPhase.awaitingCall]⟩ ≤ 10 :=
  claim_C5_at_most_ten_awaiting 1 ⟨9, [JobPhase.awaitingCall]⟩
    (Relation.ReflTransGen.tail
      (Relation.ReflTransGen.single
        (OrchStep.acquire (initOrch 1) 0 (by decide) (by decide) (by decide)))
      (OrchStep.beginCall ⟨9, [JobPhase.holding]⟩ 0 (by decide) (by decide)))
